import Mathlib

/-!
Verification of the Accela repository against its natural-language
specification.

The development shallowly embeds the parts of the Python source that the
claims are about:

* `src/core/tasks/download_depots_task.py` — the download task
  (progress aggregation, per-depot subprocess loop, download preparation);
* `src/managers/db_manager.py` — the persistent metadata cache;
* `src/src/core/steam_api.py` — the metadata resolver and manifest lookup;
* `src/src/core/tasks/process_zip_task.py` — the archive ingest task;
* `src/src/core/tasks/manifest_check_task.py` — the update check task.

Modelling conventions, used throughout:

* Python dicts are association lists `List (String × α)`; insertion keeps
  the position of an existing key (as Python dicts do) and appends fresh
  keys at the end.
* JSON payloads are values of the inductive type `JVal`; Python
  truthiness of such a value is `jTruthy`.
* The downloader emits percentages matched by the regex
  `(\d{1,3}\.\d{2})%`; a parsed percentage is represented exactly as a
  natural number of hundredths of a percent (`NN.NN%` is `100*NN + NN`),
  and the float arithmetic of the source is carried out in `ℚ`
  (the inputs exercised by the claims are exactly representable either
  way, and `int(x)` on a nonnegative float is `Int.floor`).
* Fallible Python code is embedded with `Except String`; exceptions the
  source catches and converts are converted at the same place.
* zstd compression is lossless, so the compressed depot blob of a row is
  modelled by the uncompressed association list itself.
-/

namespace Accela

/-! ## Association-list model of Python dicts -/

/-- `d.get(k)` on a Python dict: the value at the first matching key. -/
def lookupKey {α : Type} (l : List (String × α)) (k : String) : Option α :=
  match l with
  | [] => none
  | (k', v) :: t => if k' = k then some v else lookupKey t k

/-- `k in d` on a Python dict. -/
def hasKey {α : Type} (l : List (String × α)) (k : String) : Bool :=
  (lookupKey l k).isSome

/-- `d[k] = v` on a Python dict: replace in place if the key exists,
append otherwise (Python dicts keep insertion order). -/
def setKey {α : Type} (l : List (String × α)) (k : String) (v : α) :
    List (String × α) :=
  if hasKey l k then l.map (fun p => if p.1 = k then (k, v) else p)
  else l ++ [(k, v)]

/-- `del d[k]` on a Python dict (keys are unique in a dict, so filtering
every occurrence agrees with deleting the one entry). -/
def eraseKey {α : Type} (l : List (String × α)) (k : String) :
    List (String × α) :=
  l.filter (fun p => p.1 ≠ k)

/-! ## Character-list string helpers

Python string operations the source uses (`split(sep, 1)`,
`startswith`, substring search) implemented structurally over the
character list, so that concrete runs reduce in the kernel. -/

/-- Strip `p` from the front of `s` (`none` when `p` is not a prefix). -/
def stripPrefixChars : List Char → List Char → Option (List Char)
  | [], rest => some rest
  | _ :: _, [] => none
  | p :: ps, c :: cs => if c = p then stripPrefixChars ps cs else none

/-- Split at the first occurrence of `sep`: `some (before, after)`, or
`none` when `sep` does not occur.  Models Python `s.split(sep, 1)` (and
`sep in s` via `isSome`) for non-empty `sep`. -/
def findSplit (sep : List Char) : List Char → Option (List Char × List Char)
  | [] =>
    match stripPrefixChars sep [] with
    | some rest => some ([], rest)
    | none => none
  | c :: cs =>
    match stripPrefixChars sep (c :: cs) with
    | some rest => some ([], rest)
    | none =>
      match findSplit sep cs with
      | some (pre, post) => some (c :: pre, post)
      | none => none

/-- Python `s.split(sep, 1)`: the part before the first occurrence of
`sep` and, when `sep` occurs, the part after it. -/
def pySplitOnce (s sep : String) : String × Option String :=
  match findSplit sep.data s.data with
  | some (pre, post) => (String.mk pre, some (String.mk post))
  | none => (s, none)

/-- Python `s.startswith(pre)`. -/
def pyStartsWith (s pre : String) : Bool :=
  (stripPrefixChars pre.data s.data).isSome

/-- Python `sub in s` for non-empty `sub`. -/
def pyContains (s sub : String) : Bool :=
  (findSplit sub.data s.data).isSome

/-! ## DownloadDepotsTask (src/core/tasks/download_depots_task.py)

`DownloadDepotsTask.run` drives one downloader subprocess per depot.  The
observable behaviour of one depot, for the purposes of the claims, is its
parsed size, the sequence of percentages the `(\d{1,3}\.\d{2})%` regex
extracts from its output lines, and the subprocess exit code. -/

/-- One depot as seen by the `run` loop of `DownloadDepotsTask`:
`depotId = command[4]`, `size = depot_sizes[i]`, `lines` the percentages
parsed by `percentage_regex` from the streamed output (in hundredths of a
percent, so `NN.NN%` is `100*NN + NN`, hence a value in `[0, 99999]`),
and the subprocess return code. -/
structure DepotJob where
  depotId : String
  size : ℕ
  lines : List ℕ
  exitCode : ℤ
deriving DecidableEq

/-- The overall percentage `_handle_downloader_output` computes for one
matched line, with the float arithmetic of the source carried out
exactly.  With a positive planned total the source computes
`int((completed + pct/100 * size) / total * 100)` and clamps it with
`max(0, min(100, .))`; for a parsed percentage of `h` hundredths the
inner rational is `(completed + h/10000 * size) / total * 100 =
(completed*10000 + h*size) * 100 / (10000*total)`, nonnegative, so
Python `int` truncation is its floor, i.e. natural division.  With a
zero total the source emits the bare `int(percentage) = h / 100`,
unclamped. -/
def totalPercentage (total completed size : ℕ) (h : ℕ) : ℤ :=
  if 0 < total then
    max 0 (min 100 ((((completed * 10000 + h * size) * 100) / (10000 * total) : ℕ) : ℤ))
  else
    ((h / 100 : ℕ) : ℤ)

/-- The values emitted on `progress_percentage` while streaming one
depot's output lines: a value is emitted only when it differs from
`last_percentage`, which then becomes the new `last_percentage`. -/
def handleLines (total completed size : ℕ) : ℤ → List ℕ → List ℤ
  | _, [] => []
  | last, h :: hs =>
    let t := totalPercentage total completed size h
    if t = last then handleLines total completed size last hs
    else t :: handleLines total completed size t hs

/-- State threaded through the `for i, command in enumerate(commands)`
loop of `run`: the byte accumulator `completed_so_far_for_this_job`, the
emitted `progress_percentage` values, the depots for which a non-zero
exit warning was reported, and the depots whose subprocess was
started. -/
structure RunState where
  completed : ℕ
  emitted : List ℤ
  warnedDepots : List String
  startedDepots : List String
deriving DecidableEq

/-- One iteration of the `run` loop: `last_percentage` is reset to `-1`,
the depot's output lines are streamed through
`_handle_downloader_output`, and afterwards a non-zero exit code reports
a warning (the loop continues) while a zero exit code advances
`completed_so_far_for_this_job` by the depot's size. -/
def runDepot (total : ℕ) (st : RunState) (d : DepotJob) : RunState :=
  { completed :=
      if d.exitCode = 0 then st.completed + d.size else st.completed
    emitted := st.emitted ++ handleLines total st.completed d.size (-1) d.lines
    warnedDepots :=
      if d.exitCode = 0 then st.warnedDepots else st.warnedDepots ++ [d.depotId]
    startedDepots := st.startedDepots ++ [d.depotId] }

/-- The whole depot loop of `DownloadDepotsTask.run` (no external `stop()`
and the downloader binary present, so every listed depot is processed):
`total_download_size_for_this_job = sum(depot_sizes)` and
`completed_so_far_for_this_job = 0` initially. -/
def runTask (ds : List DepotJob) : RunState :=
  ds.foldl (runDepot (ds.map DepotJob.size).sum)
    { completed := 0, emitted := [], warnedDepots := [], startedDepots := [] }

/-- `true` iff the list contains two adjacent equal values (an emission
that repeats the immediately preceding emission). -/
def hasAdjacentRepeat : List ℤ → Bool
  | a :: b :: t => a == b || hasAdjacentRepeat (b :: t)
  | _ => false

/-! ### `_prepare_downloads` -/

/-- A depot entry of the `game_data["depots"]` table handed to
`DownloadDepotsTask` (built by `ProcessZipTask`): the decryption key and
the optional size string. -/
structure DLDepot where
  key : String
  size : Option String
deriving DecidableEq

/-- The `game_data` dict as `_prepare_downloads` reads it.  `none` in an
optional field means the key is absent from the dict. -/
structure DLGameData where
  appid : String
  game_name : Option String
  installdir : Option String
  depots : List (String × DLDepot)
  manifests : List (String × String)
deriving DecidableEq

/-- Filesystem/process effects of `_prepare_downloads`, in program
order. -/
inductive PrepEvent where
  | writeKeyFile (entries : List (String × String))
  | makeDownloadDir (dir : String)
  | buildCommand (depotId : String)
deriving DecidableEq

/-- Whether an event is the write of the ephemeral depot-key file. -/
def PrepEvent.isWriteKey : PrepEvent → Bool
  | .writeKeyFile _ => true
  | _ => false

/-- Whether an event is the construction of a downloader command (the
only path to a downloader subprocess in `run`). -/
def PrepEvent.isBuildCommand : PrepEvent → Bool
  | .buildCommand _ => true
  | _ => false

/-- `re.sub(r"[^\w\s-]", "", name).strip().replace(" ", "_")` (ASCII
reading of `\w`/`\s`). -/
def sanitizeGameName (name : String) : String :=
  (String.mk (name.data.filter
    (fun c => c.isAlphanum || c = '_' || c.isWhitespace || c = '-'))).trim
    |>.replace " " "_"

/-- `int(size_str)` with `ValueError`/`TypeError` mapped to the 0 the
caller substitutes. -/
def parseSizeStr (s : Option String) : ℤ :=
  match s with
  | none => 0
  | some str => (str.toInt?).getD 0

/-- The result triple of `_prepare_downloads`. -/
structure PrepResult where
  commands : List (List String)
  skipped : List String
  depotSizes : List ℤ
deriving DecidableEq

/-- The per-selected-depot loop of `_prepare_downloads`: a depot with a
missing (or empty) manifest id is recorded as skipped; otherwise its size
is parsed (absent/unparseable becomes 0 with a warning) and a downloader
command is built.  (A selected depot with a manifest but absent from
`game_data["depots"]` raises `KeyError` in the source; no claim exercises
that path, and it is modelled as an absent size.) -/
def prepLoop (exeName keysPath manifestDir downloadDir : String)
    (gd : DLGameData) : List String → PrepResult × List PrepEvent
  | [] => (⟨[], [], []⟩, [])
  | depotId :: rest =>
    let (r, evs) := prepLoop exeName keysPath manifestDir downloadDir gd rest
    match lookupKey gd.manifests depotId with
    | none => (⟨r.commands, depotId :: r.skipped, r.depotSizes⟩, evs)
    | some manifestId =>
      if manifestId = "" then
        (⟨r.commands, depotId :: r.skipped, r.depotSizes⟩, evs)
      else
        let size := parseSizeStr ((lookupKey gd.depots depotId).bind DLDepot.size)
        let manifestFile := manifestDir ++ "/" ++ depotId ++ "_" ++
          manifestId ++ ".manifest"
        let cmd := [exeName, "-app", gd.appid, "-depot", depotId,
          "-manifest", manifestId, "-manifestfile", manifestFile,
          "-depotkeys", keysPath, "-max-downloads", "25",
          "-dir", downloadDir, "-validate"]
        (⟨cmd :: r.commands, r.skipped, size :: r.depotSizes⟩,
          PrepEvent.buildCommand depotId :: evs)

/-- `DownloadDepotsTask._prepare_downloads`, as the pair of its outcome
and its ordered effect trace.  In source order it (1) writes the
ephemeral key file `mistwalker_keys.vdf` with one `id;key` line per
selected depot present in `game_data["depots"]`, (2) computes the install
folder and creates the destination directory, (3) only then validates
that `game_data["manifests"]` is non-empty — raising
the full two-sentence `Exception` message of the source on failure —
and (4) builds one downloader command per selected depot that has a
manifest id. -/
def prepare_downloads (exeName tempDir : String) (gd : DLGameData)
    (selected : List String) (destPath : String) :
    Except String PrepResult × List PrepEvent :=
  let keysPath := tempDir ++ "/mistwalker_keys.vdf"
  let manifestDir := tempDir ++ "/mistwalker_manifests"
  let keyEntries := selected.filterMap fun id =>
    (lookupKey gd.depots id).map fun e => (id, e.key)
  let safeFallback := sanitizeGameName (gd.game_name.getD "")
  let folder0 := gd.installdir.getD safeFallback
  let folder := if folder0 = "" then "App_" ++ gd.appid else folder0
  let downloadDir := destPath ++ "/steamapps/common/" ++ folder
  let evs0 := [PrepEvent.writeKeyFile keyEntries,
    PrepEvent.makeDownloadDir downloadDir]
  if gd.manifests = [] then
    (Except.error "No manifest files were detected in the zip. Please ensure you're using a zip from a trusted source.", evs0)
  else
    let (r, evs) := prepLoop exeName keysPath manifestDir downloadDir gd selected
    (Except.ok r, evs0 ++ evs)

/-- The commands `DownloadDepotsTask.run` hands to `subprocess.Popen`,
in order.  `run` calls `_prepare_downloads` at line 84, outside its
`try` block, so when the validation raises, the exception propagates out
of `run` before the depot loop and no downloader subprocess is ever
started; with a successful preparation the loop runs one subprocess per
prepared command (absent an external `stop()`). -/
def run_popen_commands (exeName tempDir : String) (gd : DLGameData)
    (selected : List String) (destPath : String) : List (List String) :=
  match (prepare_downloads exeName tempDir gd selected destPath).1 with
  | Except.error _ => []
  | Except.ok r => r.commands

/-- The clamped overall percentage a depot boundary pins when
`completed_so_far_for_this_job = c`: the value `_handle_downloader_output`
would compute for a 0% line (and, by monotonicity, a lower bound for
every later line of the depot). -/
def lowB (total c : ℕ) : ℤ :=
  max 0 (min 100 ((c * 100 / total : ℕ) : ℤ))

/-- The `progress_percentage` values emitted by the whole run loop,
starting from accumulator value `c`, written as a recursion over the
depot list (proved below to agree with `runTask`). -/
def emissions (total : ℕ) : ℕ → List DepotJob → List ℤ
  | _, [] => []
  | c, d :: ds =>
    handleLines total c d.size (-1) d.lines ++
      emissions total (if d.exitCode = 0 then c + d.size else c) ds

/-- Concrete run used to refute C1 as stated: three depots of 100 bytes,
the first succeeding after reporting 100%, the second failing (exit 1)
after reporting 50%, the third succeeding after reporting 0%. -/
def c1RunInput : List DepotJob :=
  [⟨"1", 100, [10000], 0⟩, ⟨"2", 100, [5000], 1⟩, ⟨"3", 100, [0], 0⟩]

/-- Concrete run used as the C1 witness: two depots of 100 bytes, both
succeeding, with nondecreasing in-range percentages. -/
def c1WitnessInput : List DepotJob :=
  [⟨"1", 100, [5000, 10000], 0⟩, ⟨"2", 100, [10000], 0⟩]

/-- Concrete `game_data` used for C2: one keyed depot but an empty
manifest table. -/
def c2GameData : DLGameData :=
  { appid := "7", game_name := some "G", installdir := none
    depots := [("11", ⟨"KEY", some "100"⟩)], manifests := [] }

/-! ## JSON values

Depot tables and raw API payloads are JSON; `JVal` is the JSON value
universe used for them (floats are never inspected by the modelled
code). -/

/-- A JSON value.  `null` doubles as the `None` that Python `dict.get`
returns for a missing key. -/
inductive JVal where
  | null : JVal
  | jstr : String → JVal
  | jbool : Bool → JVal
  | jnum : ℤ → JVal
  | jobj : List (String × JVal) → JVal

/-- Python truthiness of a JSON value. -/
def jTruthy : JVal → Bool
  | .null => false
  | .jstr s => s ≠ ""
  | .jbool b => b
  | .jnum n => n ≠ 0
  | .jobj l => !l.isEmpty

/-- `j.get(k)`/ `j.get(k, {})` with missing keys collapsing to `null`
(Python `.get` chains used by the source treat `None` and a missing key
the same way; `.get` on a non-dict raises in Python, on paths that end in
an enclosing `except` returning a miss — no claim exercises them). -/
def jget (j : JVal) (k : String) : JVal :=
  match j with
  | .jobj l => (lookupKey l k).getD .null
  | _ => .null

/-- The string payload of a JSON value, when it is a string. -/
def jAsStr : JVal → Option String
  | .jstr s => some s
  | _ => none

/-- Python truthiness of an optional string (`None` and `""` falsy). -/
def strTruthy : Option String → Bool
  | none => false
  | some s => s ≠ ""

/-- `true` iff the JSON value is an object with field `k`. -/
def jHasField (j : JVal) (k : String) : Bool :=
  match j with
  | .jobj l => hasKey l k
  | _ => false

/-! ## DatabaseManager (src/managers/db_manager.py)

The metadata cache.  A healthy manager is modelled (connection open and
`zstandard` importable); the degraded no-op mode is out of scope of the
claims.  zstd compression is lossless and `json.dumps`/`json.loads`
round-trip the depot table, so the compressed blob of a row is modelled
by the depot association list itself. -/

/-- `EXPIRATION_SECONDS = 1_209_600` (14 days). -/
def EXPIRATION_SECONDS : ℤ := 1209600

/-- One row of the `apps` table.  `last_updated` is `none` for a NULL
column (seeded rows). -/
structure DbRow where
  name : Option String
  header_path : Option String
  installdir : Option String
  depots_json : List (String × JVal)
  last_updated : Option ℤ

/-- The `apps` table, keyed by appid. -/
def Db : Type := List (String × DbRow)

/-- The `data` dict handed to `upsert_app_info` (and produced by the
metadata resolver): `none` in an optional field means the key is absent
from the dict. -/
structure AppData where
  name : Option String
  installdir : Option String
  depots : List (String × JVal)
  buildid : Option String
  header_url : Option String

/-- `DatabaseManager._normalize_header_path`: full URL to relative
storage path.  A falsy or non-string URL becomes `NULL`; otherwise the
query string is dropped and everything after the first `/apps/` is kept,
with `{appid}/header.jpg` as the fallback. -/
def normalize_header_path (appid : String) (url : Option String) :
    Option String :=
  match url with
  | none => none
  | some u =>
    if u = "" then none
    else
      let u' := (pySplitOnce u "?").1
      match (pySplitOnce u' "/apps/").2 with
      | some rest => some rest
      | none => some (appid ++ "/header.jpg")

/-- `DatabaseManager._construct_full_url`: relative storage path back to
a full URL (legacy rows that already store a full `http…` URL pass
through). -/
def construct_full_url (header_path : Option String) : Option String :=
  match header_path with
  | none => none
  | some p =>
    if p = "" then none
    else if pyStartsWith p "http" then some p
    else some ("https://shared.akamai.steamstatic.com/store_item_assets/steam/apps/" ++ p)

/-- `DatabaseManager.upsert_app_info`: the name defaults to
`App {appid}`, a truthy build id is packed into the depot table under the
reserved `branches` key, the header URL is normalized, and the row is
replaced atomically with `last_updated = now`. -/
def upsert_app_info (db : Db) (appid : String) (data : AppData) (now : ℤ) :
    Db :=
  let name := data.name.getD ("App " ++ appid)
  let depots_to_save :=
    if strTruthy data.buildid then
      setKey data.depots "branches"
        (JVal.jobj [("public",
          JVal.jobj [("buildid", JVal.jstr (data.buildid.getD ""))])])
    else data.depots
  let header_path := normalize_header_path appid data.header_url
  setKey db appid
    { name := some name, header_path := header_path
      installdir := data.installdir, depots_json := depots_to_save
      last_updated := some now }

/-- The dict `get_app_info` returns on a hit. -/
structure AppInfoOut where
  appid : String
  name : Option String
  installdir : Option String
  header_url : Option String
  depots : List (String × JVal)
  buildid : Option JVal
  source : String

/-- `DatabaseManager.get_app_info`: `None` on a missing row or when
`now - (last_updated or 0)` exceeds `EXPIRATION_SECONDS`; otherwise the
depot blob is decompressed, a `branches` entry is unpacked into the
build id and deleted from the returned depot table, and the header URL
is reconstructed. -/
def get_app_info (db : Db) (appid : String) (now : ℤ) : Option AppInfoOut :=
  match lookupKey db appid with
  | none => none
  | some row =>
    let last_updated := row.last_updated.getD 0
    if now - last_updated > EXPIRATION_SECONDS then none
    else
      let depots_data := row.depots_json
      let buildid : Option JVal :=
        if hasKey depots_data "branches" then
          match jget (jget (jget (JVal.jobj depots_data) "branches")
              "public") "buildid" with
          | .null => none
          | v => some v
        else none
      let depots' :=
        if hasKey depots_data "branches" then eraseKey depots_data "branches"
        else depots_data
      some { appid := appid
             name := row.name
             installdir := row.installdir
             header_url := construct_full_url row.header_path
             depots := depots'
             buildid := buildid
             source := "database" }

/-- Erase the decryption-key field from every depot object of a depot
table ("modulo decryption-key fields" in the round-trip claim). -/
def stripDepotKeys (l : List (String × JVal)) : List (String × JVal) :=
  l.map fun p =>
    (p.1, match p.2 with
      | .jobj fields => JVal.jobj (eraseKey fields "key")
      | v => v)

/-- Concrete metadata used to refute the C3 round trip: the header URL is
not a canonical CDN asset URL, so normalization does not invert. -/
def c3Meta : AppData :=
  { name := some "Game", installdir := some "dir"
    depots := [("931", JVal.jobj [("manifest_id", JVal.jstr "m1")])]
    buildid := some "42", header_url := some "https://cdn.example.com/h.png" }

/-! ## steam_api (src/src/core/steam_api.py)

`get_depot_info_from_api` is the metadata resolver: database fast path,
then two network sources (`_fetch_with_steam_client`,
`_fetch_with_web_api`), merge, and heal-the-cache write-back.  Each
network source is modelled as a function of the raw JSON it would have
obtained: `none` stands for every path on which the source returns `{}`
without producing data (library missing, login failure, invalid appid,
request exception, raised exception). -/

/-- Abstracts `ImageFetcher.get_header_image_url` (a database lookup
with a generic CDN-URL fallback, src/utils/image_fetcher.py): the
claims depend only on where this URL is used, never on its exact value,
so the first generic candidate stands for it. -/
def headerImageUrl (appid : String) : String :=
  "https://cdn.akamai.steamstatic.com/steam/apps/" ++ appid ++ "/header.jpg"

/-- `j == "1"` on a JSON value (Python `==` against a string). -/
def jEqStr (j : JVal) (s : String) : Bool :=
  match j with
  | .jstr t => t == s
  | _ => false

/-- The parsing part of `_fetch_with_steam_client` (lines 119-178): from
the json-cleaned product-info response, build the 4-field result dict.
Each depot value is the literal dict
`{name, oslist, language, steamdeck, size, manifest_id}`.  A non-string
`buildid`/`installdir` payload is modelled as absent (in the source it
would make the later sqlite write fail, dropping the row). -/
def steam_client_parse (appid : String) (cleaned : JVal) : AppData :=
  let app_data := jget (jget cleaned "apps") appid
  if jTruthy app_data then
    { name := none
      installdir := jAsStr (jget (jget app_data "config") "installdir")
      header_url :=
        if jTruthy (jget (jget (jget app_data "common") "header_image")
            "english")
        then some (headerImageUrl appid) else none
      buildid := jAsStr (jget (jget (jget (jget app_data "depots")
        "branches") "public") "buildid")
      depots :=
        match jget app_data "depots" with
        | .jobj items => items.filterMap fun p =>
            match p.2 with
            | .jobj fields =>
              let config := jget (JVal.jobj fields) "config"
              let manifest_public :=
                jget (jget (JVal.jobj fields) "manifests") "public"
              let mid := match manifest_public with
                | .jobj mf => jget (JVal.jobj mf) "gid"
                | v => v
              let size := match manifest_public with
                | .jobj mf => jget (JVal.jobj mf) "size"
                | _ => JVal.null
              some (p.1, JVal.jobj
                [("name", jget (JVal.jobj fields) "name"),
                 ("oslist", jget config "oslist"),
                 ("language", jget config "language"),
                 ("steamdeck", JVal.jbool (jEqStr (jget config "steamdeck") "1")),
                 ("size", size),
                 ("manifest_id", mid)])
            | _ => none
        | _ => [] }
  else
    { name := none, installdir := none, header_url := none
      buildid := none, depots := [] }

/-- `_fetch_with_steam_client`: `none` is the `return {}` outcome; with a
cleaned response, the parsed 4-field dict is returned only when its depot
table is non-empty or its build id truthy (line 181), else `{}`. -/
def fetch_with_steam_client (appid : String) (raw : Option JVal) :
    Option AppData :=
  match raw with
  | none => none
  | some cleaned =>
    let d := steam_client_parse appid cleaned
    if !d.depots.isEmpty || strTruthy d.buildid then some d else none

/-- `_parse_web_api_response`: always returns the literal 3-field dict
`{depots, installdir, header_url}`; fields are populated only when the
wrapper for the appid is truthy with a truthy `success`.  Each depot
value is the literal dict `{name, oslist, language, steamdeck, size}`. -/
def parse_web_api_response (appid : String) (data : JVal) : AppData :=
  let wrapper := jget data appid
  if jTruthy wrapper && jTruthy (jget wrapper "success") then
    let app_data := jget wrapper "data"
    { name := none
      installdir := jAsStr (jget app_data "install_dir")
      header_url := jAsStr (jget app_data "header_image")
      buildid := none
      depots :=
        match jget app_data "depots" with
        | .jobj items => items.filterMap fun p =>
            match p.2 with
            | .jobj fields =>
              some (p.1, JVal.jobj
                [("name", jget (JVal.jobj fields) "name"),
                 ("oslist", JVal.null),
                 ("language", JVal.null),
                 ("steamdeck", JVal.jbool false),
                 ("size", jget (JVal.jobj fields) "max_size")])
            | _ => none
        | _ => [] }
  else
    { name := none, installdir := none, header_url := none
      buildid := none, depots := [] }

/-- `_fetch_with_web_api`: `none` is the request-exception `return {}`;
otherwise the response is parsed (a parse of an unsuccessful response is
the truthy 3-field dict with empty fields). -/
def fetch_with_web_api (appid : String) (raw : Option JVal) :
    Option AppData :=
  raw.map (parse_web_api_response appid)

/-- The source-merge of `get_depot_info_from_api` (lines 59-76): prefer
the steam.client result when its depot table is non-empty, else fall
back entirely to the Web API result; then a truthy Web API header URL
always overrides the header URL (creating the dict when the base was
`{}`).  `none` is an overall falsy `final_data`, which is never
healed. -/
def merged_result (appid : String) (scRaw webRaw : Option JVal) :
    Option AppData :=
  let steam_client_data := fetch_with_steam_client appid scRaw
  let web_api_data := fetch_with_web_api appid webRaw
  let final0 : Option AppData :=
    match steam_client_data with
    | some d => if !d.depots.isEmpty then some d else web_api_data
    | none => web_api_data
  let webHeader : Option String :=
    match web_api_data with
    | some w => if strTruthy w.header_url then w.header_url else none
    | none => none
  match webHeader with
  | some hu =>
    match final0 with
    | some f => some { f with header_url := some hu }
    | none => some { name := none, installdir := none, depots := []
                     buildid := none, header_url := some hu }
  | none => final0

/-- The observable outcome of one `get_depot_info_from_api` call:
whether it returned from the database fast path, whether it consulted
the network sources, the payload it healed the cache with (if any), and
the database afterwards. -/
structure ApiCall where
  fromDb : Bool
  usedNetwork : Bool
  healed : Option AppData
  db2 : Db

/-- The network path of `get_depot_info_from_api` (steps 2-3): fetch
from both sources, merge, and upsert the merged result when truthy. -/
def resolve_via_network (db : Db) (appid : String) (now : ℤ)
    (scRaw webRaw : Option JVal) : ApiCall :=
  match merged_result appid scRaw webRaw with
  | some fd =>
    { fromDb := false, usedNetwork := true, healed := some fd
      db2 := upsert_app_info db appid fd now }
  | none => { fromDb := false, usedNetwork := true, healed := none, db2 := db }

/-- `get_depot_info_from_api`: return straight from the database when the
cached row is fresh with a non-empty depot table (step 1, no network);
otherwise do the network work. -/
def get_depot_info_from_api (db : Db) (appid : String) (now : ℤ)
    (scRaw webRaw : Option JVal) : ApiCall :=
  match get_app_info db appid now with
  | some info =>
    if info.depots.isEmpty = false then
      { fromDb := true, usedNetwork := false, healed := none, db2 := db }
    else resolve_via_network db appid now scRaw webRaw
  | none => resolve_via_network db appid now scRaw webRaw

/-! ### `get_manifest_id` -/

/-- The result dict of `get_manifest_id`. -/
structure ManifestResult where
  success : Bool
  manifest_id : Option JVal
  depot_id : Option String
  error : Option String

/-- Modelled from the call site `db.clear_app_info(appid)` at
src/src/core/steam_api.py line 397: `DatabaseManager`
(src/managers/db_manager.py) defines no method named `clear_app_info`
anywhere in the repository, so the attribute access raises
`AttributeError` (whose message, rendered here without its quote
characters, is: DatabaseManager object has no attribute
clear_app_info). -/
def db_clear_app_info : Except String Unit :=
  Except.error "DatabaseManager object has no attribute clear_app_info"

/-- The manifest lookup at the chosen depot
(`depots.get(target, {}).get("manifest_id")`), with the missing-manifest
branch delegated to `onMissingRetry`. -/
def get_manifest_id_finish (depots : List (String × JVal)) (target : String)
    (onMissingRetry : Option ManifestResult) : ManifestResult :=
  let mid := jget (jget (JVal.jobj depots) target) "manifest_id"
  if jTruthy mid then
    { success := true, manifest_id := some mid, depot_id := some target
      error := none }
  else
    match onMissingRetry with
    | some r => r
    | none =>
      { success := false, manifest_id := none, depot_id := some target
        error := some "No manifest ID found" }

/-- The body of `get_manifest_id` after the cache handling: `app_data` is
the result of `get_depot_info_from_api` abstracted to its truthiness and
depot table (`none` for a falsy `{}`), `onMissingRetry` is what the
missing-manifest branch produces (the force-refresh retry when
`use_cache` was true, the plain error result otherwise). -/
def get_manifest_id_core (app_data : Option (List (String × JVal)))
    (depot_id : Option String) (onMissingRetry : Option ManifestResult) :
    ManifestResult :=
  match app_data with
  | none =>
    { success := false, manifest_id := none, depot_id := depot_id
      error := some "Failed to fetch app data" }
  | some depots =>
    if depots.isEmpty then
      { success := false, manifest_id := none, depot_id := depot_id
        error := some "No depots found for this app" }
    else
      if strTruthy depot_id then
        if hasKey depots (depot_id.getD "") then
          get_manifest_id_finish depots (depot_id.getD "") onMissingRetry
        else
          { success := false, manifest_id := none, depot_id := depot_id
            error := some ("Depot " ++ depot_id.getD "" ++ " not found") }
      else
        get_manifest_id_finish depots (depots.headD ("", .null)).1
          onMissingRetry

/-- `get_manifest_id(appid, depot_id, use_cache=False)`: the `try` body
first calls the undefined `db.clear_app_info`, so the `AttributeError`
reaches the blanket `except` and the error result is returned (the
message of the source carries quote characters around the two names,
elided here). -/
def get_manifest_id_nocache (appid : String) (depot_id : Option String)
    (freshData : Option (List (String × JVal))) : ManifestResult :=
  match db_clear_app_info with
  | .error e =>
    { success := false, manifest_id := none, depot_id := depot_id
      error := some ("Unexpected error: " ++ e) }
  | .ok _ => get_manifest_id_core freshData depot_id none

/-- `get_manifest_id`: with `use_cache=True`, resolve from
`cachedData` and fall back to the force-refresh retry
(`use_cache=False`) whenever the cached data lacks a manifest id; with
`use_cache=False`, go through `get_manifest_id_nocache`. -/
def get_manifest_id (appid : String) (depot_id : Option String)
    (cachedData freshData : Option (List (String × JVal)))
    (use_cache : Bool) : ManifestResult :=
  if use_cache then
    get_manifest_id_core cachedData depot_id
      (some (get_manifest_id_nocache appid depot_id freshData))
  else get_manifest_id_nocache appid depot_id cachedData

/-- Concrete Web API response used for the C4 counterexample: a
successful storefront answer carrying only a header image — no depots.
The merged result is truthy (so it heals the cache) but its depot table
is empty. -/
def c4WebRaw : JVal :=
  JVal.jobj [("7", JVal.jobj
    [("success", JVal.jbool true),
     ("data", JVal.jobj
       [("header_image", JVal.jstr "https://x/apps/7/h.jpg")])])]

/-- Concrete Web API response with one depot, for the C4/C6
witnesses. -/
def c6WebRaw : JVal :=
  JVal.jobj [("7", JVal.jobj
    [("success", JVal.jbool true),
     ("data", JVal.jobj
       [("depots", JVal.jobj
          [("100", JVal.jobj
            [("name", JVal.jstr "D"), ("max_size", JVal.jstr "5")])]),
        ("header_image", JVal.jstr "https://x/apps/7/h.jpg")])])]

/-- The payload `get_depot_info_from_api` heals the cache with on
`c6WebRaw` (steam.client failed, Web API answered with one depot). -/
def c6Fd : AppData :=
  { name := none
    installdir := none
    header_url := some "https://x/apps/7/h.jpg"
    buildid := none
    depots := [("100", JVal.jobj
      [("name", JVal.jstr "D"),
       ("oslist", JVal.null),
       ("language", JVal.null),
       ("steamdeck", JVal.jbool false),
       ("size", JVal.jstr "5")])] }

/-- Concrete stale row (written at epoch 0), for the C5 witness. -/
def c5StaleRow : DbRow :=
  { name := some "Old", header_path := none, installdir := none
    depots_json := [], last_updated := some 0 }

/-- Concrete database with the single stale row, for the C5 witness. -/
def c5StaleDb : Db := [("7", c5StaleRow)]

/-! ## ProcessZipTask (src/src/core/tasks/process_zip_task.py)

The archive ingest task.  A zip archive is its entry list (name,
decoded content); the depots.ini descriptions and the metadata-resolver
answer are oracles (the spec treats both as external collaborators that
degrade to empty results instead of raising; accordingly the string
fields the enrichment reads from the resolver are modelled as strings —
a non-string `oslist`/`language` payload would raise in the source). -/

/-- Case-insensitive prefix strip (the source compiles its LUA regexes
with `re.IGNORECASE`). -/
def stripPrefixCI : List Char → List Char → Option (List Char)
  | [], rest => some rest
  | _ :: _, [] => none
  | p :: ps, c :: cs => if c.toLower = p.toLower then stripPrefixCI ps cs
      else none

/-- Split at the first occurrence of the character `ch`. -/
def splitAtChar (ch : Char) : List Char → Option (List Char × List Char)
  | [] => none
  | c :: cs =>
    if c = ch then some ([], cs)
    else
      match splitAtChar ch cs with
      | some (a, b) => some (c :: a, b)
      | none => none

/-- Python `s.endswith(suffix)`. -/
def pyEndsWith (s suffix : String) : Bool :=
  (stripPrefixChars suffix.data.reverse s.data.reverse).isSome

/-- `os.path.basename` (POSIX): the part after the last slash. -/
def basename (s : String) : String :=
  String.mk ((s.data.reverse.takeWhile (fun c => c ≠ Char.ofNat 47)).reverse)

/-- Python `s.strip()`. -/
def pyStrip (s : String) : String :=
  String.mk (((s.data.dropWhile Char.isWhitespace).reverse.dropWhile
    Char.isWhitespace).reverse)

/-- Python `s.strip(chr(34))` — strip double quotes from both ends. -/
def stripQuotes (s : String) : String :=
  String.mk (((s.data.dropWhile (fun c => c = Char.ofNat 34)).reverse.dropWhile
    (fun c => c = Char.ofNat 34)).reverse)

/-- Python `s.lower()` / `s.upper()` / `s.capitalize()` (ASCII). -/
def pyLower (s : String) : String := String.mk (s.data.map Char.toLower)

/-- See `pyLower`. -/
def pyUpper (s : String) : String := String.mk (s.data.map Char.toUpper)

/-- See `pyLower`. -/
def pyCapitalize (s : String) : String :=
  match s.data with
  | [] => ""
  | c :: cs => String.mk (c.toUpper :: cs.map Char.toLower)

/-- Python `s.split(sep)` (all occurrences), fuelled by the string
length (every split consumes at least one character). -/
def splitAllAux (sep : List Char) : ℕ → List Char → List (List Char)
  | 0, s => [s]
  | fuel + 1, s =>
    match findSplit sep s with
    | some (pre, post) => pre :: splitAllAux sep fuel post
    | none => [s]

/-- See `splitAllAux`. -/
def pySplitAll (s sep : String) : List String :=
  (splitAllAux sep.data s.data.length s.data).map String.mk

/-- Python `s.replace(pat, repl)` (all occurrences, left to right). -/
def pyReplaceAllAux (pat repl : List Char) : ℕ → List Char → List Char
  | 0, s => s
  | fuel + 1, s =>
    match findSplit pat s with
    | some (pre, post) => pre ++ repl ++ pyReplaceAllAux pat repl fuel post
    | none => s

/-- See `pyReplaceAllAux`. -/
def pyReplaceAll (s pat repl : String) : String :=
  String.mk (pyReplaceAllAux pat.data repl.data s.data.length s.data)

/-- `content.split(chr(10))`: the lines the line-bound regexes run
over (`.` never matches a newline). -/
def splitLinesAux : List Char → List Char → List String
  | acc, [] => [String.mk acc.reverse]
  | acc, c :: cs =>
    if c = Char.ofNat 10 then String.mk acc.reverse :: splitLinesAux [] cs
    else splitLinesAux (c :: acc) cs

/-- See `splitLinesAux`. -/
def splitLines (s : String) : List String := splitLinesAux [] s.data

/-- The first match of `addappid\((.*?)\)(.*)` (IGNORECASE) on one line:
group 1 is the text between the first case-insensitive `addappid(` and
the first closing parenthesis after it, group 2 the rest of the line.
Because the trailing `(.*)` consumes the rest of the line, `finditer`
yields at most one match per line. -/
def findAddAppId : List Char → Option (String × String)
  | [] => none
  | c :: cs =>
    match stripPrefixCI "addappid(".data (c :: cs) with
    | some rest =>
      match splitAtChar (Char.ofNat 41) rest with
      | some (g1, g2) => some (String.mk g1, String.mk g2)
      | none => findAddAppId cs
    | none => findAddAppId cs

/-- All `addappid` matches of the LUA content, in document order. -/
def addAppIdMatches (content : String) : List (String × String) :=
  (splitLines content).filterMap (fun l => findAddAppId l.data)

/-- `re.search(r"--\s*(.*)", part)` followed by the `.strip()` the
callers apply: the trimmed text after the first `--`. -/
def parseComment (part : String) : Option String :=
  match findSplit "--".data part.data with
  | some (_, rest) => some (pyStrip (String.mk rest))
  | none => none

/-- Consume one whitespace run (`\s*`). -/
def skipWs : List Char → List Char := List.dropWhile Char.isWhitespace

/-- Consume one expected character. -/
def expectChar (ch : Char) : List Char → Option (List Char)
  | c :: cs => if c = ch then some cs else none
  | [] => none

/-- Consume a maximal digit run (`\d+`), returning it and the rest. -/
def takeDigits (cs : List Char) : List Char × List Char :=
  (cs.takeWhile Char.isDigit, cs.dropWhile Char.isDigit)

/-- Consume the body of `".*?"` after the opening quote: everything up
to the first closing quote, with no newline in between (`.` does not
match a newline). -/
def scanQuoted : List Char → Option (List Char)
  | [] => none
  | c :: cs =>
    if c = Char.ofNat 34 then some cs
    else if c = Char.ofNat 10 then none
    else scanQuoted cs

/-- One attempted match of
`setManifestid\(\s*(\d+)\s*,\s*".*?"\s*,\s*(\d+)\s*\)` (IGNORECASE) at
the head of the stream: the two digit groups and the rest after the
match. -/
def trySetManifest (cs : List Char) : Option (String × String × List Char) :=
  match stripPrefixCI "setmanifestid(".data cs with
  | none => none
  | some r0 =>
    let (d1, r2) := takeDigits (skipWs r0)
    if d1.isEmpty then none
    else
      match expectChar (Char.ofNat 44) (skipWs r2) with
      | none => none
      | some r4 =>
        match expectChar (Char.ofNat 34) (skipWs r4) with
        | none => none
        | some r6 =>
          match scanQuoted r6 with
          | none => none
          | some r7 =>
            match expectChar (Char.ofNat 44) (skipWs r7) with
            | none => none
            | some r9 =>
              let (d2, r11) := takeDigits (skipWs r9)
              if d2.isEmpty then none
              else
                match expectChar (Char.ofNat 41) (skipWs r11) with
                | none => none
                | some r13 => some (String.mk d1, String.mk d2, r13)

/-- `re.finditer` for `setManifestid`: scan the whole content,
non-overlapping, fuelled by the content length. -/
def scanSizes : ℕ → List Char → List (String × String)
  | 0, _ => []
  | _, [] => []
  | fuel + 1, c :: cs =>
    match trySetManifest (c :: cs) with
    | some (d1, d2, rest) => (d1, d2) :: scanSizes fuel rest
    | none => scanSizes fuel cs

/-- The `manifest_sizes` side table parsed by `_parse_lua` (dict
assignment, later sizes for the same depot overwrite). -/
def parseManifestSizes (content : String) : List (String × String) :=
  (scanSizes content.data.length content.data).foldl
    (fun acc p => setKey acc p.1 p.2) []

/-- A depot entry as `_parse_lua` classifies it: decryption key and
trailing-comment description. -/
structure LuaDepot where
  key : String
  desc : String
deriving DecidableEq

/-- The fields `_parse_lua` writes into `game_data`. -/
structure LuaParse where
  appid : String
  game_name : String
  depots : List (String × LuaDepot)
  dlcs : List (String × String)
  manifest_sizes : List (String × String)
deriving DecidableEq

/-- `ProcessZipTask._parse_lua`: `none` is the
`ValueError("LUA file is invalid; no addappid entries found")` (quote
characters of the source message elided) raised
when the content has no `addappid` match.  The first match designates
the appid (first comma-separated argument, stripped) and the game name
(trailing comment, defaulting to `App_{appid}`); every further match
with a non-empty quoted third argument is a depot (key plus trailing
comment, defaulting to `Depot {id}`), the rest are DLC entries. -/
def parse_lua (content : String) : Option LuaParse :=
  match addAppIdMatches content with
  | [] => none
  | first :: restMatches =>
    let appid := pyStrip ((pySplitAll first.1 ",").headD "")
    let game_name := (parseComment first.2).getD ("App_" ++ appid)
    let step := fun (acc : List (String × LuaDepot) × List (String × String))
        (m : String × String) =>
      let args := (pySplitAll m.1 ",").map pyStrip
      let app_id := args.headD ""
      let desc := (parseComment m.2).getD ("Depot " ++ app_id)
      if 2 < args.length ∧ stripQuotes (args.getD 2 "") ≠ "" then
        (setKey acc.1 app_id
          { key := stripQuotes (args.getD 2 ""), desc := desc }, acc.2)
      else (acc.1, setKey acc.2 app_id desc)
    let (depots, dlcs) := restMatches.foldl step ([], [])
    some { appid := appid, game_name := game_name, depots := depots
           dlcs := dlcs, manifest_sizes := parseManifestSizes content }

/-- `DEPOT_BLACKLIST` from src/src/ui/assets.py. -/
def DEPOT_BLACKLIST : List ℕ :=
  [228981, 228982, 228983, 228984, 228985, 228986, 228987, 228988,
   228989, 229000, 229001, 229002, 229003, 229004, 229005, 229006,
   229007, 229010, 229011, 229012, 229020, 229030, 229031, 229032,
   229033, 228990, 239142, 798541, 798542, 798543, 1034630]

/-- `{str(item) for item in DEPOT_BLACKLIST}`. -/
def string_blacklist : List String := DEPOT_BLACKLIST.map (fun n => toString n)

/-- `\bost\b` on an already-lowercased text (`\w` read as ASCII
alphanumeric or underscore). -/
def isWordChar (c : Char) : Bool := c.isAlphanum || c = Char.ofNat 95

/-- See `isWordChar`; `prev` is the character before the scan point. -/
def hasWordOstAux : Option Char → List Char → Bool
  | _, [] => false
  | prev, c :: cs =>
    (c = Char.ofNat 111 &&
      (match cs with
        | c2 :: c3 :: rest =>
          c2 = Char.ofNat 115 && c3 = Char.ofNat 116 &&
          (match prev with
            | some p => !isWordChar p
            | none => true) &&
          (match rest with
            | r :: _ => !isWordChar r
            | [] => true)
        | _ => false))
    || hasWordOstAux (some c) cs

/-- See `hasWordOstAux`. -/
def hasWordOst (cs : List Char) : Bool := hasWordOstAux none cs

/-- Keep an optional string only when truthy. -/
def strOptT (o : Option String) : Option String :=
  match o with
  | some s => if s = "" then none else some s
  | none => none

/-- A depot entry of the final `game_data["depots"]` table after
enrichment (the `oslist`/`language` keys are present only when resolver
details existed). -/
structure EnrichedDepot where
  key : String
  desc : String
  oslist : Option JVal
  language : Option JVal
  size : Option JVal

/-- The `game_data` dict `ProcessZipTask.run` returns. -/
structure ZipGameData where
  appid : String
  game_name : String
  manifests : List (String × String)
  depots : List (String × EnrichedDepot)
  dlcs : List (String × String)
  manifest_sizes : List (String × String)
  installdir : Option String
  buildid : Option String
  header_url : Option String

/-- The enrichment of one surviving depot (the body of the
`for depot_id, lua_data in filtered_depots.items()` loop): decorate the
description with OS/Deck/language tags from the resolver details, drop
the depot (`none`) when the decorated description matches the
soundtrack/OST filter, and pick the size preferring the resolver size
over the LUA size annotation. -/
def enrichDepot (iniDescs : List (String × String))
    (apiDepots : List (String × JVal)) (msizes : List (String × String))
    (depot_id : String) (lua : LuaDepot) : Option (String × EnrichedDepot) :=
  let details : Option JVal :=
    match lookupKey apiDepots depot_id with
    | some v => if jTruthy v then some v else none
    | none => none
  let base0 := (lookupKey iniDescs depot_id).getD lua.desc
  let fields :=
    match details with
    | some d =>
      let tags :=
        (match strOptT (jAsStr (jget d "oslist")) with
          | some s => ["[" ++ pyUpper s ++ "]"]
          | none => []) ++
        (if jTruthy (jget d "steamdeck") then ["[DECK]"] else [])
      let base :=
        match strOptT (jAsStr (jget d "language")) with
        | some lang => base0 ++ " (" ++ pyCapitalize lang ++ ")"
        | none => base0
      let final_description :=
        if tags.isEmpty then base
        else String.intercalate " " tags ++ " " ++ base
      (final_description, some (jget d "oslist"), some (jget d "language"))
    | none => (base0, none, none)
  let lower := pyLower fields.1
  if pyContains lower "soundtrack" || hasWordOst lower.data then none
  else
    let api_size : Option JVal :=
      match details with
      | some d => if jTruthy (jget d "size") then some (jget d "size") else none
      | none => none
    let size : Option JVal :=
      match api_size with
      | some v => some v
      | none =>
        match lookupKey msizes depot_id with
        | some ls => if ls = "" then none else some (JVal.jstr ls)
        | none => none
    some (depot_id,
      { key := lua.key, desc := fields.1, oslist := fields.2.1
        language := fields.2.2, size := size })

/-- The all-fields-empty resolver answer (`{}`). -/
def emptyAppData : AppData :=
  { name := none, installdir := none, depots := [], buildid := none
    header_url := none }

/-- The resolver answer `run` works with: the oracle when the parsed
appid is truthy, `{}` otherwise (the source only calls
`get_depot_info_from_api` when `game_data.get("appid")` is truthy). -/
def apiDataFor (appid : String) (api : AppData) : AppData :=
  if appid ≠ "" then api else emptyAppData

/-- The `.lua` entries of the archive, in archive order. -/
def luaFilesOf (zipEntries : List (String × String)) :
    List (String × String) :=
  zipEntries.filter (fun e => pyEndsWith e.1 ".lua")

/-- The depot→manifest-id map built from the
`{depot}_{manifestid}.manifest` entry names (keyed by basename, later
duplicates overwriting). -/
def manifestMapOf (zipEntries : List (String × String)) :
    List (String × String) :=
  ((zipEntries.filter (fun e => pyEndsWith e.1 ".manifest")).foldl
      (fun acc e => setKey acc (basename e.1) e.2) []).foldl
    (fun acc e =>
      let parts := pySplitAll (pyReplaceAll e.1 ".manifest" "") "_"
      if parts.length = 2 then
        setKey acc (parts.headD "") (parts.getLastD "")
      else acc) []

/-- The `game_data` a successfully parsed run returns: DLC descriptions
looked up in depots.ini, blacklisted depots removed, surviving depots
enriched via the resolver with soundtrack depots dropped (no enrichment
and no resolver call when nothing survives the earlier steps). -/
def buildGameData (manifests iniDescs : List (String × String))
    (api : AppData) (lp : LuaParse) : ZipGameData :=
  let dlcs := lp.dlcs.map (fun p => (p.1, (lookupKey iniDescs p.1).getD p.2))
  if lp.depots.isEmpty then
    { appid := lp.appid, game_name := lp.game_name
      manifests := manifests, depots := [], dlcs := dlcs
      manifest_sizes := lp.manifest_sizes
      installdir := none, buildid := none, header_url := none }
  else
    let filtered := lp.depots.filter (fun p => !(string_blacklist.contains p.1))
    if filtered.isEmpty then
      { appid := lp.appid, game_name := lp.game_name
        manifests := manifests, depots := [], dlcs := dlcs
        manifest_sizes := lp.manifest_sizes
        installdir := none, buildid := none, header_url := none }
    else
      let api_data := apiDataFor lp.appid api
      { appid := lp.appid, game_name := lp.game_name
        manifests := manifests
        depots := filtered.filterMap (fun p =>
          enrichDepot iniDescs api_data.depots lp.manifest_sizes p.1 p.2)
        dlcs := dlcs
        manifest_sizes := lp.manifest_sizes
        installdir := strOptT api_data.installdir
        buildid := strOptT api_data.buildid
        header_url := strOptT api_data.header_url }

/-- `ProcessZipTask.run` over an archive given as its (name, content)
entry list, with the depots.ini table and the resolver answer as
oracles: locate the manifest script (else the
`FileNotFoundError`), build the depot→manifest-id map from the
`{depot}_{manifestid}.manifest` entry names, parse the script (else the
`ValueError`), and return the built `game_data`.  (The temp-directory
staging of manifest files has no bearing on the returned value and no
claim reads it.) -/
def processZipRun (zipEntries : List (String × String))
    (iniDescs : List (String × String)) (api : AppData) :
    Except String ZipGameData :=
  match luaFilesOf zipEntries with
  | [] => Except.error "No .lua file found in the zip archive."
  | firstLua :: _ =>
    match parse_lua firstLua.2 with
    | none => Except.error "LUA file is invalid; no addappid entries found."
    | some lp =>
      Except.ok (buildGameData (manifestMapOf zipEntries) iniDescs api lp)

/-- Concrete archive for the C7 witness: a script whose only depot is
the permanently blacklisted 228981. -/
def c7Lua : String :=
  "addappid(10) -- My Game\naddappid(228981, 1, \"KEY\") -- Tool"

/-- See `c7Lua`. -/
def c7Zip : List (String × String) := [("m.lua", c7Lua)]

/-- The parse of `c7Lua`. -/
def c7Lp : LuaParse :=
  { appid := "10", game_name := "My Game"
    depots := [("228981", { key := "KEY", desc := "Tool" })]
    dlcs := [], manifest_sizes := [] }

/-! ## ManifestCheckTask (src/src/core/tasks/manifest_check_task.py)

The update check.  One game is checked against the persisted depot
record (`{appid}.depot`, `none` when the file does not exist) and the
batched product-info results. -/

/-- `ManifestCheckTask._check_game_update_with_batched_data`: the
classification of one game.  `depotFile` is the content of the
persisted `{appid}.depot` record, `none` when no such file exists;
`batched` is the batched API result (each stored value is a truthy
result dict, abstracted to the fields read here). -/
def check_game_update (appid : Option String) (depotFile : Option String)
    (batched : List (String × AppData)) : String :=
  match appid with
  | none => "cannot_determine"
  | some a =>
    if a = "" || a = "0" || a = "N/A" || a = "unknown" then
      "cannot_determine"
    else
      match depotFile with
      | none => "cannot_determine"
      | some raw =>
        let content := pyStrip raw
        match findSplit ":".data content.data with
        | none => "cannot_determine"
        | some (d0, m0) =>
          let saved_depot := pyStrip (String.mk d0)
          let saved_manifest := pyStrip (String.mk m0)
          match lookupKey batched a with
          | none => "cannot_determine"
          | some data =>
            if data.depots.isEmpty then "cannot_determine"
            else
              match lookupKey data.depots saved_depot with
              | none => "cannot_determine"
              | some depot_info =>
                let current := jget depot_info "manifest_id"
                if jTruthy current then
                  match current with
                  | .jstr c =>
                    if saved_manifest = c then "up_to_date"
                    else "update_available"
                  | _ => "update_available"
                else "cannot_determine"

end Accela

namespace Accela

/-! ## Theorems: association lists -/

theorem lookupKey_eq_none {α : Type} {l : List (String × α)} {k : String} :
    lookupKey l k = none ↔ ∀ p ∈ l, p.1 ≠ k := by
  induction l with
  | nil => simp [lookupKey]
  | cons hd t ih =>
      by_cases h : hd.1 = k
      · simp [lookupKey, h]
      · simp [lookupKey, h, ih]

theorem lookupKey_append_right {α : Type} {l : List (String × α)}
    {k : String} (h : lookupKey l k = none) (l' : List (String × α)) :
    lookupKey (l ++ l') k = lookupKey l' k := by
  induction l with
  | nil => simp
  | cons hd t ih =>
      by_cases hh : hd.1 = k
      · simp [lookupKey, hh] at h
      · simp [lookupKey, hh] at h ⊢
        exact ih h

theorem eraseKey_append {α : Type} (l l' : List (String × α)) (k : String) :
    eraseKey (l ++ l') k = eraseKey l k ++ eraseKey l' k := by
  simp [eraseKey]

theorem eraseKey_of_not_has {α : Type} {l : List (String × α)} {k : String}
    (h : hasKey l k = false) : eraseKey l k = l := by
  have h' : lookupKey l k = none := by
    cases hl : lookupKey l k with
    | none => rfl
    | some v => simp [hasKey, hl] at h
  rw [lookupKey_eq_none] at h'
  exact List.filter_eq_self.mpr (fun p hp => by simpa using h' p hp)

theorem lookupKey_map_set {α : Type} (l : List (String × α)) (k : String)
    (v : α) (h : hasKey l k = true) :
    lookupKey (l.map (fun p => if p.1 = k then (k, v) else p)) k = some v := by
  induction l with
  | nil => simp [hasKey, lookupKey] at h
  | cons hd t ih =>
      obtain ⟨k', v'⟩ := hd
      by_cases hh : k' = k
      · subst hh
        simp only [List.map_cons, if_true]
        simp [lookupKey]
      · have ht : hasKey t k = true := by
          simpa [hasKey, lookupKey, hh] using h
        simp only [List.map_cons]
        rw [show (if (k', v').1 = k then (k, v) else (k', v')) = (k', v') by
          simp [hh]]
        simpa [lookupKey, hh] using ih ht

theorem lookupKey_setKey_self {α : Type} (l : List (String × α))
    (k : String) (v : α) : lookupKey (setKey l k v) k = some v := by
  unfold setKey
  cases h : hasKey l k with
  | true =>
      simp only [if_true]
      exact lookupKey_map_set l k v h
  | false =>
      simp only [Bool.false_eq_true, if_false]
      have h' : lookupKey l k = none := by
        cases hl : lookupKey l k with
        | none => rfl
        | some v' => simp [hasKey, hl] at h
      rw [lookupKey_append_right h', lookupKey]
      simp

/-! ## Theorems: download task progress aggregation -/

theorem totalPercentage_nonneg {total : ℕ} (htot : 0 < total)
    (c s h : ℕ) : 0 ≤ totalPercentage total c s h := by
  simp [totalPercentage, htot]

theorem totalPercentage_le_100 {total : ℕ} (htot : 0 < total)
    (c s h : ℕ) : totalPercentage total c s h ≤ 100 := by
  simp only [totalPercentage, htot, if_true]
  exact max_le (by norm_num) (min_le_left _ _)

theorem totalPercentage_mono (total c s : ℕ) {h h' : ℕ} (hh : h ≤ h') :
    totalPercentage total c s h ≤ totalPercentage total c s h' := by
  unfold totalPercentage
  split
  · apply max_le_max le_rfl
    apply min_le_min le_rfl
    have : (c * 10000 + h * s) * 100 ≤ (c * 10000 + h' * s) * 100 :=
      Nat.mul_le_mul_right _ (Nat.add_le_add_left (Nat.mul_le_mul_right _ hh) _)
    exact_mod_cast Nat.div_le_div_right this
  · exact_mod_cast Nat.div_le_div_right hh

theorem lowB_nonneg (total c : ℕ) : 0 ≤ lowB total c := le_max_left _ _

theorem lowB_le_100 (total c : ℕ) : lowB total c ≤ 100 :=
  max_le (by norm_num) (min_le_left _ _)

theorem lowB_mono (total : ℕ) {c c' : ℕ} (hc : c ≤ c') :
    lowB total c ≤ lowB total c' := by
  apply max_le_max le_rfl
  apply min_le_min le_rfl
  exact_mod_cast Nat.div_le_div_right (Nat.mul_le_mul_right _ hc)

theorem div_rescale (a total : ℕ) :
    a * 100 / total = a * 10000 * 100 / (10000 * total) := by
  rw [show a * 10000 * 100 = 10000 * (a * 100) by ring]
  rw [Nat.mul_div_mul_left _ _ (by norm_num)]

theorem lowB_le_totalPercentage {total : ℕ} (htot : 0 < total)
    (c s h : ℕ) : lowB total c ≤ totalPercentage total c s h := by
  simp only [totalPercentage, htot, if_true, lowB]
  apply max_le_max le_rfl
  apply min_le_min le_rfl
  rw [div_rescale c total]
  have : c * 10000 * 100 ≤ (c * 10000 + h * s) * 100 :=
    Nat.mul_le_mul_right _ (Nat.le_add_right _ _)
  exact_mod_cast Nat.div_le_div_right this

theorem totalPercentage_le_lowB {total : ℕ} (htot : 0 < total)
    (c s : ℕ) {h : ℕ} (hh : h ≤ 10000) :
    totalPercentage total c s h ≤ lowB total (c + s) := by
  simp only [totalPercentage, htot, if_true, lowB]
  apply max_le_max le_rfl
  apply min_le_min le_rfl
  rw [div_rescale (c + s) total]
  have : (c * 10000 + h * s) * 100 ≤ (c + s) * 10000 * 100 := by
    apply Nat.mul_le_mul_right
    have : h * s ≤ 10000 * s := Nat.mul_le_mul_right _ hh
    calc c * 10000 + h * s ≤ c * 10000 + 10000 * s := Nat.add_le_add_left this _
      _ = (c + s) * 10000 := by ring
  exact_mod_cast Nat.div_le_div_right this

theorem handleLines_sublist (total c s : ℕ) :
    ∀ (hs : List ℕ) (last : ℤ),
      List.Sublist (handleLines total c s last hs)
        (hs.map (totalPercentage total c s))
  | [], _ => by simp [handleLines]
  | h :: hs, last => by
    rw [handleLines]
    simp only [List.map_cons]
    split
    · exact (handleLines_sublist total c s hs last).cons _
    · exact (handleLines_sublist total c s hs _).cons₂ _

theorem mem_handleLines {total c s : ℕ} {hs : List ℕ} {last x : ℤ}
    (hx : x ∈ handleLines total c s last hs) :
    ∃ h ∈ hs, x = totalPercentage total c s h := by
  have := (handleLines_sublist total c s hs last).subset hx
  simpa [List.mem_map, eq_comm] using this

theorem handleLines_pairwise {total c s : ℕ} {hs : List ℕ}
    (hsorted : List.Pairwise (· ≤ ·) hs) (last : ℤ) :
    List.Pairwise (· ≤ ·) (handleLines total c s last hs) :=
  (hsorted.map _ (fun _ _ hab => totalPercentage_mono total c s hab)).sublist
    (handleLines_sublist total c s hs last)

theorem handleLines_noRepeat (total c s : ℕ) :
    ∀ (hs : List ℕ) (last : ℤ),
      hasAdjacentRepeat (handleLines total c s last hs) = false ∧
      ∀ y ∈ (handleLines total c s last hs).head?, y ≠ last
  | [], last => by simp [handleLines, hasAdjacentRepeat]
  | h :: hs, last => by
    rw [handleLines]
    split
    · exact handleLines_noRepeat total c s hs last
    · rename_i hne
      obtain ⟨ih1, ih2⟩ := handleLines_noRepeat total c s hs
        (totalPercentage total c s h)
      constructor
      · cases hrec : handleLines total c s (totalPercentage total c s h) hs with
        | nil => simp [hasAdjacentRepeat]
        | cons b t =>
            have hb : b ≠ totalPercentage total c s h := by
              apply ih2
              simp [hrec]
            rw [hasAdjacentRepeat]
            simp only [Bool.or_eq_false_iff]
            refine ⟨by simpa using (Ne.symm hb), ?_⟩
            rw [← hrec]
            exact ih1
      · intro y hy
        simp only [List.head?_cons, Option.mem_def, Option.some.injEq] at hy
        subst hy
        exact hne

theorem foldl_runDepot_emitted (total : ℕ) :
    ∀ (ds : List DepotJob) (st : RunState),
      (ds.foldl (runDepot total) st).emitted =
        st.emitted ++ emissions total st.completed ds
  | [], st => by simp [emissions]
  | d :: ds, st => by
    rw [List.foldl_cons, foldl_runDepot_emitted total ds, emissions]
    simp [runDepot, List.append_assoc]

theorem runTask_emitted (ds : List DepotJob) :
    (runTask ds).emitted = emissions ((ds.map DepotJob.size).sum) 0 ds := by
  rw [runTask, foldl_runDepot_emitted]
  simp

theorem emissions_spec {total : ℕ} (htot : 0 < total) :
    ∀ (ds : List DepotJob) (c : ℕ),
      (∀ d ∈ ds, d.exitCode = 0) →
      (∀ d ∈ ds, List.Pairwise (· ≤ ·) d.lines) →
      (∀ d ∈ ds, ∀ h ∈ d.lines, h ≤ 10000) →
      List.Pairwise (· ≤ ·) (emissions total c ds) ∧
      ∀ x ∈ emissions total c ds, lowB total c ≤ x ∧ x ≤ 100
  | [], c => by simp [emissions]
  | d :: ds, c => by
    intro hexit hmono hbound
    have hd0 : d.exitCode = 0 := hexit d (by simp)
    obtain ⟨ihP, ihB⟩ := emissions_spec htot ds (c + d.size)
      (fun x hx => hexit x (by simp [hx]))
      (fun x hx => hmono x (by simp [hx]))
      (fun x hx => hbound x (by simp [hx]))
    have segBounds : ∀ x ∈ handleLines total c d.size (-1) d.lines,
        lowB total c ≤ x ∧ x ≤ lowB total (c + d.size) := by
      intro x hx
      obtain ⟨h, hh, rfl⟩ := mem_handleLines hx
      exact ⟨lowB_le_totalPercentage htot c d.size h,
        totalPercentage_le_lowB htot c d.size (hbound d (by simp) h hh)⟩
    rw [emissions, hd0]
    simp only [if_true]
    constructor
    · rw [List.pairwise_append]
      refine ⟨handleLines_pairwise (hmono d (by simp)) _, ihP, ?_⟩
      intro x hx y hy
      calc x ≤ lowB total (c + d.size) := (segBounds x hx).2
        _ ≤ y := (ihB y hy).1
    · intro x hx
      rw [List.mem_append] at hx
      rcases hx with hx | hx
      · exact ⟨(segBounds x hx).1,
          le_trans (segBounds x hx).2 (lowB_le_100 _ _)⟩
      · exact ⟨le_trans (lowB_mono total (Nat.le_add_right _ _)) (ihB x hx).1,
          (ihB x hx).2⟩

theorem runLoop_state (total : ℕ) :
    ∀ (ds : List DepotJob) (st : RunState),
      (ds.foldl (runDepot total) st).startedDepots =
        st.startedDepots ++ ds.map DepotJob.depotId ∧
      (ds.foldl (runDepot total) st).warnedDepots =
        st.warnedDepots ++
          (ds.filter (fun d => d.exitCode ≠ 0)).map DepotJob.depotId ∧
      (ds.foldl (runDepot total) st).completed =
        st.completed + ((ds.filter (fun d => d.exitCode = 0)).map DepotJob.size).sum
  | [], st => by simp
  | d :: ds, st => by
    obtain ⟨ih1, ih2, ih3⟩ := runLoop_state total ds (runDepot total st d)
    by_cases hd : d.exitCode = 0
    · refine ⟨?_, ?_, ?_⟩
      · rw [List.foldl_cons, ih1]
        simp [runDepot, hd]
      · rw [List.foldl_cons, ih2]
        simp [runDepot, hd]
      · rw [List.foldl_cons, ih3]
        simp [runDepot, hd, Nat.add_assoc]
    · refine ⟨?_, ?_, ?_⟩
      · rw [List.foldl_cons, ih1]
        simp [runDepot, hd]
      · rw [List.foldl_cons, ih2]
        simp [runDepot, hd]
      · rw [List.foldl_cons, ih3]
        simp [runDepot, hd]

/-! ## Claim C1 -/

/-- **C1, counterexample.**  The claim states that for every sequence of
depot sizes and per-depot parsed percentages the emitted
`progress_percentage` sequence is nondecreasing, within `[0, 100]`, and
never repeats a value twice in a row.  On the concrete run `c1RunInput`
(second depot exits non-zero, so `completed_so_far_for_this_job` is not
advanced) the emitted sequence is `[33, 50, 33]`, which is not
nondecreasing, so the claim as stated is false. -/
theorem c1_progress_claim_counterexample :
    ¬ (List.Sorted (· ≤ ·) (runTask c1RunInput).emitted ∧
       (∀ x ∈ (runTask c1RunInput).emitted, 0 ≤ x ∧ x ≤ 100) ∧
       hasAdjacentRepeat (runTask c1RunInput).emitted = false) := by
  intro hcl
  exact absurd hcl.1 (by decide)

/-- **C1, amended.**  Within one `DownloadDepotsTask.run`, provided the
planned total size is positive, every depot subprocess exits with code
0, and each depot's parsed percentages are nondecreasing and at most
100.00%, the emitted `progress_percentage` sequence is monotonically
non-decreasing and every emitted value lies in `[0, 100]`; moreover ties
are suppressed within any single depot's output stream (consecutive
duplicates remain possible at depot boundaries, because the `run` loop
resets `last_percentage` to `-1` before each depot). -/
theorem c1_progress_amended (ds : List DepotJob)
    (htot : 0 < (ds.map DepotJob.size).sum)
    (hexit : ∀ d ∈ ds, d.exitCode = 0)
    (hmono : ∀ d ∈ ds, List.Pairwise (· ≤ ·) d.lines)
    (hbound : ∀ d ∈ ds, ∀ h ∈ d.lines, h ≤ 10000) :
    List.Sorted (· ≤ ·) (runTask ds).emitted ∧
    (∀ x ∈ (runTask ds).emitted, 0 ≤ x ∧ x ≤ 100) ∧
    (∀ (total c s : ℕ) (last : ℤ) (lines : List ℕ),
      hasAdjacentRepeat (handleLines total c s last lines) = false) := by
  rw [runTask_emitted]
  obtain ⟨hP, hB⟩ := emissions_spec htot ds 0 hexit hmono hbound
  refine ⟨hP, ?_, ?_⟩
  · intro x hx
    exact ⟨le_trans (lowB_nonneg _ _) (hB x hx).1, (hB x hx).2⟩
  · intro total c s last lines
    exact (handleLines_noRepeat total c s lines last).1

/-- Witness for `c1_progress_amended` at the concrete run
`c1WitnessInput` (emitted sequence `[25, 50, 100]`). -/
theorem c1_progress_amended_witness :
    (0 < (c1WitnessInput.map DepotJob.size).sum ∧
     (∀ d ∈ c1WitnessInput, d.exitCode = 0) ∧
     (∀ d ∈ c1WitnessInput, List.Pairwise (· ≤ ·) d.lines) ∧
     (∀ d ∈ c1WitnessInput, ∀ h ∈ d.lines, h ≤ 10000)) ∧
    (List.Sorted (· ≤ ·) (runTask c1WitnessInput).emitted ∧
     (∀ x ∈ (runTask c1WitnessInput).emitted, 0 ≤ x ∧ x ≤ 100) ∧
     (∀ (total c s : ℕ) (last : ℤ) (lines : List ℕ),
       hasAdjacentRepeat (handleLines total c s last lines) = false)) :=
  ⟨⟨by decide, by decide, by decide, by decide⟩,
    c1_progress_amended c1WitnessInput (by decide) (by decide) (by decide)
      (by decide)⟩

/-! ## Claim C2 -/

/-- **C2, counterexample.**  The claim states that the non-empty-manifest
validation happens before the ephemeral depot-key file is written, so
that with an empty manifest table no key file is created.  On the
concrete `c2GameData` (empty manifest table, one selected keyed depot),
`_prepare_downloads` fails as predicted and `run` starts no downloader
subprocess, but the effect trace does contain the key-file write — the
source writes `mistwalker_keys.vdf` at the top of `_prepare_downloads`,
before the manifest validation — so the claim as stated is false. -/
theorem c2_validation_order_counterexample :
    c2GameData.manifests = [] ∧
    (prepare_downloads "exe" "/tmp" c2GameData ["11"] "/dest").1.isOk = false ∧
    run_popen_commands "exe" "/tmp" c2GameData ["11"] "/dest" = [] ∧
    ¬ ((prepare_downloads "exe" "/tmp" c2GameData ["11"] "/dest").2.all
        (fun e => !e.isWriteKey) = true) := by
  refine ⟨rfl, rfl, rfl, ?_⟩
  decide

/-- **C2, amended.**  When `game_data` has an empty manifest table,
`DownloadDepotsTask` fails fast with the descriptive error, `run` hands
no command to `subprocess.Popen` (no downloader subprocess is invoked,
and `_prepare_downloads` builds no command), but this
validation runs only after the ephemeral depot-key file has been written
(and the destination directory created): the key-file write is the first
effect of `_prepare_downloads`, so the key file IS created. -/
theorem c2_validation_order_amended (exe tmp dest : String)
    (gd : DLGameData) (sel : List String) (h : gd.manifests = []) :
    (prepare_downloads exe tmp gd sel dest).1 =
      Except.error "No manifest files were detected in the zip. Please ensure you're using a zip from a trusted source." ∧
    run_popen_commands exe tmp gd sel dest = [] ∧
    (∀ e ∈ (prepare_downloads exe tmp gd sel dest).2,
      e.isBuildCommand = false) ∧
    ((prepare_downloads exe tmp gd sel dest).2.head?.map
      PrepEvent.isWriteKey) = some true := by
  refine ⟨?_, ?_, ?_, ?_⟩
  · simp [prepare_downloads, h]
  · simp [run_popen_commands, prepare_downloads, h]
  · intro e he
    simp only [prepare_downloads, h, if_true, List.mem_cons,
      List.not_mem_nil, or_false] at he
    rcases he with rfl | rfl <;> rfl
  · simp [prepare_downloads, h, PrepEvent.isWriteKey]

/-- Witness for `c2_validation_order_amended` at `c2GameData`. -/
theorem c2_validation_order_amended_witness :
    c2GameData.manifests = [] ∧
    ((prepare_downloads "exe" "/tmp" c2GameData ["11"] "/dest").1 =
      Except.error "No manifest files were detected in the zip. Please ensure you're using a zip from a trusted source." ∧
    run_popen_commands "exe" "/tmp" c2GameData ["11"] "/dest" = [] ∧
    (∀ e ∈ (prepare_downloads "exe" "/tmp" c2GameData ["11"] "/dest").2,
      e.isBuildCommand = false) ∧
    ((prepare_downloads "exe" "/tmp" c2GameData ["11"] "/dest").2.head?.map
      PrepEvent.isWriteKey) = some true) :=
  ⟨rfl, c2_validation_order_amended "exe" "/tmp" "/dest" c2GameData ["11"] rfl⟩

/-! ## Theorems: archive ingest -/

theorem parse_lua_eq_none_iff (c : String) :
    parse_lua c = none ↔ addAppIdMatches c = [] := by
  unfold parse_lua
  cases h : addAppIdMatches c <;> simp

/-- When every parsed depot is blacklisted or dropped by the
soundtrack/enrichment filter, the built `game_data` has an empty depot
table. -/
theorem buildGameData_depots_empty (manifests iniDescs : List (String × String))
    (api : AppData) (lp : LuaParse)
    (hall : ∀ p ∈ lp.depots, string_blacklist.contains p.1 = true ∨
      enrichDepot iniDescs (apiDataFor lp.appid api).depots
        lp.manifest_sizes p.1 p.2 = none) :
    (buildGameData manifests iniDescs api lp).depots.isEmpty = true := by
  have hnil : (lp.depots.filter
      (fun p => !(string_blacklist.contains p.1))).filterMap
      (fun p => enrichDepot iniDescs (apiDataFor lp.appid api).depots
        lp.manifest_sizes p.1 p.2) = [] := by
    rw [List.filterMap_eq_nil_iff]
    intro p hpmem
    rw [List.mem_filter] at hpmem
    obtain ⟨hpl, hpb⟩ := hpmem
    rcases hall p hpl with hbl | hen
    · rw [hbl] at hpb
      simp at hpb
    · exact hen
  simp only [buildGameData]
  split
  · rfl
  · split
    · rfl
    · show ((lp.depots.filter
          (fun p => !(string_blacklist.contains p.1))).filterMap
          (fun p => enrichDepot iniDescs (apiDataFor lp.appid api).depots
            lp.manifest_sizes p.1 p.2)).isEmpty = true
      rw [hnil]
      rfl

/-! ## Claim C7 -/

/-- **C7.**  `ProcessZipTask.run` raises a parse error exactly when the
archive holds no `.lua` entry or the script holds no `addappid`
directive; and when directives exist, the run returns normally, with an
empty depot set whenever every parsed depot is removed by the blacklist
or the soundtrack/enrichment filter — a valid empty result, not an
error.  (The depots.ini table and the metadata resolver are oracles, per
the collaborator boundary of the spec: they degrade to empty results
rather than raising.) -/
theorem c7_parse_error_exactly (zipEntries iniDescs : List (String × String))
    (api : AppData) :
    ((processZipRun zipEntries iniDescs api).isOk = false ↔
      luaFilesOf zipEntries = [] ∨
      addAppIdMatches ((luaFilesOf zipEntries).headD ("", "")).2 = []) ∧
    (∀ lp, parse_lua ((luaFilesOf zipEntries).headD ("", "")).2 = some lp →
      ∃ g, processZipRun zipEntries iniDescs api = Except.ok g ∧
        ((∀ p ∈ lp.depots, string_blacklist.contains p.1 = true ∨
            enrichDepot iniDescs (apiDataFor lp.appid api).depots
              lp.manifest_sizes p.1 p.2 = none) →
          g.depots.isEmpty = true)) := by
  unfold processZipRun
  cases hlf : luaFilesOf zipEntries with
  | nil =>
      refine ⟨by simp [Except.isOk, Except.toBool], ?_⟩
      intro lp hlp
      simp only [List.headD_nil] at hlp
      have h0 : addAppIdMatches ("", "").2 = [] := by decide
      rw [(parse_lua_eq_none_iff _).mpr h0] at hlp
      exact Option.noConfusion hlp
  | cons f rest =>
      simp only [List.headD_cons]
      cases hp : parse_lua f.2 with
      | none =>
          refine ⟨?_, ?_⟩
          · simp [Except.isOk, Except.toBool, (parse_lua_eq_none_iff _).mp hp]
          · intro lp hlp
            exact Option.noConfusion hlp
      | some lp =>
          have hm : ¬ addAppIdMatches f.2 = [] := fun hnil =>
            Option.noConfusion
              (((parse_lua_eq_none_iff _).mpr hnil).symm.trans hp)
          refine ⟨?_, ?_⟩
          · simp [Except.isOk, Except.toBool, hm]
          · intro lp' hlp'
            have hlpe : lp' = lp := (Option.some.inj hlp').symm
            subst hlpe
            exact ⟨_, rfl, fun hall =>
              buildGameData_depots_empty (manifestMapOf zipEntries)
                iniDescs api lp' hall⟩

/-- Witness for `c7_parse_error_exactly` at the concrete archive
`c7Zip`, whose only parsed depot is blacklisted: the run returns
normally with an empty depot set. -/
theorem c7_parse_error_exactly_witness :
    (parse_lua ((luaFilesOf c7Zip).headD ("", "")).2 = some c7Lp ∧
     (∀ p ∈ c7Lp.depots, string_blacklist.contains p.1 = true ∨
        enrichDepot [] (apiDataFor c7Lp.appid emptyAppData).depots
          c7Lp.manifest_sizes p.1 p.2 = none)) ∧
    ((processZipRun c7Zip [] emptyAppData).isOk = true ∧
     ∃ g, processZipRun c7Zip [] emptyAppData = Except.ok g ∧
       g.depots.isEmpty = true) := by
  have hall : ∀ p ∈ c7Lp.depots, string_blacklist.contains p.1 = true ∨
      enrichDepot [] (apiDataFor c7Lp.appid emptyAppData).depots
        c7Lp.manifest_sizes p.1 p.2 = none := by
    intro p hp
    simp only [c7Lp, List.mem_singleton] at hp
    subst hp
    left
    decide
  have h := c7_parse_error_exactly c7Zip [] emptyAppData
  obtain ⟨g, hg, himp⟩ := h.2 c7Lp (by decide)
  refine ⟨⟨by decide, hall⟩, ?_, g, hg, himp hall⟩
  rw [hg]
  rfl

/-! ## Claim C9 -/

/-- **C9.**  For every game whose persisted `{appid}.depot` record does
not exist on disk, `ManifestCheckTask` classifies it as
`cannot_determine`, whatever the batched API result contains — in
particular never as `up_to_date` or `update_available`. -/
theorem c9_no_record_indeterminate (appid : Option String)
    (batched : List (String × AppData)) :
    check_game_update appid none batched = "cannot_determine" := by
  unfold check_game_update
  cases appid with
  | none => rfl
  | some a =>
      split
      all_goals first
      | rfl
      | (split <;> rfl)

/-! ## Claim C8 -/

/-- **C8.**  In the `run` loop of `DownloadDepotsTask`, a depot whose
subprocess exits non-zero gets a warning recorded and the loop continues
to the next depot (every listed depot is started, whatever the exit
codes), and `completed_so_far_for_this_job` is advanced by exactly the
sizes of the depots whose exit code was zero. -/
theorem c8_partial_failure (ds : List DepotJob) :
    (runTask ds).startedDepots = ds.map DepotJob.depotId ∧
    (runTask ds).warnedDepots =
      (ds.filter (fun d => d.exitCode ≠ 0)).map DepotJob.depotId ∧
    (runTask ds).completed =
      ((ds.filter (fun d => d.exitCode = 0)).map DepotJob.size).sum := by
  obtain ⟨h1, h2, h3⟩ := runLoop_state ((ds.map DepotJob.size).sum) ds
    { completed := 0, emitted := [], warnedDepots := [], startedDepots := [] }
  exact ⟨by simpa [runTask] using h1, by simpa [runTask] using h2,
    by simpa [runTask] using h3⟩

/-! ## Theorems: database layer -/

theorem setKey_of_not_has {α : Type} {l : List (String × α)} {k : String}
    (h : hasKey l k = false) (v : α) : setKey l k v = l ++ [(k, v)] := by
  simp [setKey, h]

theorem lookupKey_of_not_has {α : Type} {l : List (String × α)}
    {k : String} (h : hasKey l k = false) : lookupKey l k = none := by
  cases hl : lookupKey l k with
  | none => rfl
  | some v => simp [hasKey, hl] at h

/-- The row written by `upsert_app_info` is read back unchanged by
`get_app_info` within the expiration window, provided the depot table
does not itself use the reserved `branches` key: the name (defaulted if
absent), install dir and depot table come back exactly, the build id
comes back when it was truthy, and the header URL comes back as the
reconstruction of its normalized form. -/
theorem get_after_upsert (db : Db) (appid : String) (M : AppData)
    (tw tr : ℤ) (hbr : hasKey M.depots "branches" = false)
    (hwin : tr - tw ≤ EXPIRATION_SECONDS) :
    get_app_info (upsert_app_info db appid M tw) appid tr =
      some { appid := appid
             name := some (M.name.getD ("App " ++ appid))
             installdir := M.installdir
             header_url :=
               construct_full_url (normalize_header_path appid M.header_url)
             depots := M.depots
             buildid :=
               if strTruthy M.buildid then M.buildid.map JVal.jstr else none
             source := "database" } := by
  have hlook : lookupKey M.depots "branches" = none := lookupKey_of_not_has hbr
  unfold upsert_app_info get_app_info
  rw [lookupKey_setKey_self]
  cases hb : strTruthy M.buildid with
  | false =>
      simp only [hb, Bool.false_eq_true, if_false]
      rw [if_neg (by simp only [Option.getD_some]; omega)]
      simp [hbr]
  | true =>
      obtain ⟨b, hbid⟩ : ∃ b, M.buildid = some b := by
        cases hx : M.buildid with
        | none => rw [hx] at hb; simp [strTruthy] at hb
        | some b => exact ⟨b, rfl⟩
      simp only [hb, if_true]
      rw [if_neg (by simp only [Option.getD_some]; omega)]
      rw [setKey_of_not_has hbr]
      have hlookapp : lookupKey (M.depots ++
          [("branches", JVal.jobj [("public",
            JVal.jobj [("buildid", JVal.jstr (M.buildid.getD ""))])])])
          "branches" = some (JVal.jobj [("public",
            JVal.jobj [("buildid", JVal.jstr (M.buildid.getD ""))])]) := by
        rw [lookupKey_append_right hlook]
        simp [lookupKey]
      have hhas : hasKey (M.depots ++
          [("branches", JVal.jobj [("public",
            JVal.jobj [("buildid", JVal.jstr (M.buildid.getD ""))])])])
          "branches" = true := by
        simp [hasKey, hlookapp]
      have herase : eraseKey (M.depots ++
          [("branches", JVal.jobj [("public",
            JVal.jobj [("buildid", JVal.jstr (M.buildid.getD ""))])])])
          "branches" = M.depots := by
        rw [eraseKey_append, eraseKey_of_not_has hbr]
        simp [eraseKey]
      simp only [hhas, if_true, jget, hlookapp, Option.getD_some, herase]
      simp [lookupKey, hbid]

/-! ## Claim C3 -/

/-- **C3, counterexample.**  The claim states that after
`upsert_app_info(appid, M)`, a `get_app_info(appid)` within the 14-day
window returns metadata equal to `M` — same name, install dir, depot
table, build id and header URL — modulo decryption-key fields.  At the
concrete `c3Meta`, whose header URL is not a canonical CDN asset URL,
the read-back row is a hit but its header URL is the CDN reconstruction
`…/apps/7/header.jpg`, not `M`'s header URL: `_normalize_header_path`
reduces any URL without an `/apps/` segment to `{appid}/header.jpg`
before storage, so the round trip is not the identity on header URLs,
and the claim as stated is false. -/
theorem c3_roundtrip_counterexample :
    (get_app_info (upsert_app_info [] "7" c3Meta 0) "7" 0).isSome = true ∧
    ((get_app_info (upsert_app_info [] "7" c3Meta 0) "7" 0).map
      AppInfoOut.header_url) ≠ some c3Meta.header_url := by
  constructor
  · decide
  · decide

/-- **C3, amended.**  After `upsert_app_info(appid, M)`, a
`get_app_info(appid)` within the 14-day expiration window returns
metadata with the same name (provided `M` carries one), the same install
dir, the same build id (provided it is not the falsy empty string), and
exactly the depot table that was passed in, provided that table does not
use the reserved `branches` key — `upsert_app_info` itself persists
whatever depot fields it is given, decryption-key stripping being done
by its callers (claim C6).  The returned header URL is the CDN
reconstruction of the normalized form of `M`'s header URL, which equals
`M`'s header URL exactly when that is already a canonical CDN asset URL
without query parameters. -/
theorem c3_roundtrip_amended (db : Db) (appid : String) (M : AppData)
    (tw tr : ℤ) (hname : M.name.isSome = true)
    (hbuild : M.buildid ≠ some "")
    (hbr : hasKey M.depots "branches" = false)
    (hwin : tr - tw ≤ EXPIRATION_SECONDS) :
    ∃ out, get_app_info (upsert_app_info db appid M tw) appid tr = some out ∧
      out.name = M.name ∧ out.installdir = M.installdir ∧
      out.depots = M.depots ∧ out.buildid = M.buildid.map JVal.jstr ∧
      out.header_url =
        construct_full_url (normalize_header_path appid M.header_url) := by
  refine ⟨_, get_after_upsert db appid M tw tr hbr hwin, ?_, rfl, rfl, ?_, rfl⟩
  · obtain ⟨n, hn⟩ := Option.isSome_iff_exists.mp hname
    simp [hn]
  · cases hx : M.buildid with
    | none => simp [strTruthy, hx]
    | some b =>
        have hb : b ≠ "" := fun h => hbuild (by rw [hx, h])
        simp [strTruthy, hx, hb]

/-- Witness for `c3_roundtrip_amended` at a canonical-CDN metadata
value. -/
theorem c3_roundtrip_amended_witness :
    ((c3Meta.name.isSome = true) ∧ (c3Meta.buildid ≠ some "") ∧
     (hasKey c3Meta.depots "branches" = false) ∧
     ((5 : ℤ) - 0 ≤ EXPIRATION_SECONDS)) ∧
    (∃ out, get_app_info (upsert_app_info [] "7" c3Meta 0) "7" 5 = some out ∧
      out.name = c3Meta.name ∧ out.installdir = c3Meta.installdir ∧
      out.depots = c3Meta.depots ∧
      out.buildid = c3Meta.buildid.map JVal.jstr ∧
      out.header_url =
        construct_full_url (normalize_header_path "7" c3Meta.header_url)) :=
  ⟨⟨by decide, by decide, by decide, by decide⟩,
    c3_roundtrip_amended [] "7" c3Meta 0 5 (by decide) (by decide)
      (by decide) (by decide)⟩

/-! ## Theorems: metadata resolver -/

/-- A call that healed the cache with `fd` was on the network path and
left the database as `upsert_app_info db appid fd now`. -/
theorem api_healed {db : Db} {appid : String} {now : ℤ}
    {scRaw webRaw : Option JVal} {fd : AppData}
    (h : (get_depot_info_from_api db appid now scRaw webRaw).healed = some fd) :
    merged_result appid scRaw webRaw = some fd ∧
    (get_depot_info_from_api db appid now scRaw webRaw).db2 =
      upsert_app_info db appid fd now := by
  have hres : ∀ (d : Db),
      (resolve_via_network d appid now scRaw webRaw).healed = some fd →
      merged_result appid scRaw webRaw = some fd ∧
      (resolve_via_network d appid now scRaw webRaw).db2 =
        upsert_app_info d appid fd now := by
    intro d hd
    unfold resolve_via_network at hd ⊢
    revert hd
    cases hm : merged_result appid scRaw webRaw with
    | none => intro hd; simp at hd
    | some fd' =>
        intro hd
        simp at hd
        subst hd
        exact ⟨rfl, rfl⟩
  unfold get_depot_info_from_api at h ⊢
  revert h
  cases hga : get_app_info db appid now with
  | none => intro h; exact hres db h
  | some info =>
      intro h
      by_cases hne : info.depots.isEmpty = false
      · simp [hne] at h
      · have hne' : info.depots.isEmpty = true := by
          revert hne; cases info.depots.isEmpty <;> simp
        simp [hne'] at h ⊢
        exact hres db h

/-- Every depot value built by the steam.client parser is the literal
six-field dict and carries no `key` field. -/
theorem steam_client_parse_no_key (appid : String) (cleaned : JVal) :
    ∀ p ∈ (steam_client_parse appid cleaned).depots,
      jHasField p.2 "key" = false := by
  intro p hp
  simp only [steam_client_parse] at hp
  split at hp
  · split at hp
    · rename_i items heq
      rw [List.mem_filterMap] at hp
      obtain ⟨q, hq, hf⟩ := hp
      split at hf
      · rename_i fields heq2
        simp only [Option.some.injEq] at hf
        subst hf
        simp [jHasField, hasKey, lookupKey]
      · cases hf
    · simp at hp
  · simp at hp

/-- Every depot value built by the Web API parser is the literal
five-field dict and carries no `key` field. -/
theorem parse_web_api_no_key (appid : String) (data : JVal) :
    ∀ p ∈ (parse_web_api_response appid data).depots,
      jHasField p.2 "key" = false := by
  intro p hp
  simp only [parse_web_api_response] at hp
  split at hp
  · split at hp
    · rename_i items heq
      rw [List.mem_filterMap] at hp
      obtain ⟨q, hq, hf⟩ := hp
      split at hf
      · rename_i fields heq2
        simp only [Option.some.injEq] at hf
        subst hf
        simp [jHasField, hasKey, lookupKey]
      · cases hf
    · simp at hp
  · simp at hp

/-- No depot value of a merged resolver result carries a `key` field. -/
theorem merged_result_no_key (appid : String) (scRaw webRaw : Option JVal)
    {fd : AppData} (h : merged_result appid scRaw webRaw = some fd) :
    ∀ p ∈ fd.depots, jHasField p.2 "key" = false := by
  have hsc : ∀ d, fetch_with_steam_client appid scRaw = some d →
      ∀ p ∈ d.depots, jHasField p.2 "key" = false := by
    intro d hd
    cases scRaw with
    | none => simp [fetch_with_steam_client] at hd
    | some cleaned =>
        simp only [fetch_with_steam_client] at hd
        split at hd
        · simp only [Option.some.injEq] at hd
          subst hd
          exact steam_client_parse_no_key appid cleaned
        · cases hd
  have hweb : ∀ w, fetch_with_web_api appid webRaw = some w →
      ∀ p ∈ w.depots, jHasField p.2 "key" = false := by
    intro w hw
    cases webRaw with
    | none => simp [fetch_with_web_api] at hw
    | some data =>
        have hw' : parse_web_api_response appid data = w := Option.some.inj hw
        subst hw'
        exact parse_web_api_no_key appid data
  have hfin : ∀ f,
      (match fetch_with_steam_client appid scRaw with
        | some d => if !d.depots.isEmpty then some d
            else fetch_with_web_api appid webRaw
        | none => fetch_with_web_api appid webRaw) = some f →
      ∀ p ∈ f.depots, jHasField p.2 "key" = false := by
    intro f hf
    cases hs : fetch_with_steam_client appid scRaw with
    | none =>
        rw [hs] at hf
        exact hweb f hf
    | some d =>
        rw [hs] at hf
        have hf' : (if (!d.depots.isEmpty) = true then some d
            else fetch_with_web_api appid webRaw) = some f := hf
        by_cases hq : (!d.depots.isEmpty) = true
        · rw [if_pos hq] at hf'
          have hdf : d = f := Option.some.inj hf'
          subst hdf
          exact hsc d hs
        · rw [if_neg hq] at hf'
          exact hweb f hf'
  simp only [merged_result] at h
  split at h
  · rename_i hu hdr
    split at h
    · rename_i f hf0
      simp only [Option.some.injEq] at h
      subst h
      intro p hp
      exact hfin f hf0 p hp
    · simp only [Option.some.injEq] at h
      subst h
      intro p hp
      simp at hp
  · exact hfin fd h

/-! ## Claim C4 -/

/-- **C4, counterexample.**  The claim states that whenever a first
resolver call healed the cache, the immediately following call for the
same appid is a pure cache hit with no network calls.  On the concrete
inputs (steam.client failing, the Web API answering successfully with a
header image but no depots), the first call does heal the cache — the
merged result is a truthy dict — but it stores an empty depot table, so
the second call fails the fast-path test `db_data and
db_data.get('depots')` and consults the network again.  The claim as
stated is false. -/
theorem c4_cache_hit_counterexample :
    (get_depot_info_from_api [] "7" 0 none (some c4WebRaw)).healed.isSome
      = true ∧
    (get_depot_info_from_api
      (get_depot_info_from_api [] "7" 0 none (some c4WebRaw)).db2
      "7" 0 none (some c4WebRaw)).usedNetwork = true := by
  constructor
  · decide
  · decide

/-- **C4, amended.**  If a first resolver call healed the cache with a
merged result whose depot table is non-empty (and free of the reserved
`branches` key), then a second call for the same appid within the
expiration window is a pure cache hit: it returns from the database fast
path, makes no network calls, and leaves the database unchanged. -/
theorem c4_cache_hit_amended (db : Db) (appid : String) (now1 now2 : ℤ)
    (sc1 web1 sc2 web2 : Option JVal) (fd : AppData)
    (hheal : (get_depot_info_from_api db appid now1 sc1 web1).healed = some fd)
    (hne : fd.depots.isEmpty = false)
    (hbr : hasKey fd.depots "branches" = false)
    (hwin : now2 - now1 ≤ EXPIRATION_SECONDS) :
    (get_depot_info_from_api
        (get_depot_info_from_api db appid now1 sc1 web1).db2
        appid now2 sc2 web2).fromDb = true ∧
    (get_depot_info_from_api
        (get_depot_info_from_api db appid now1 sc1 web1).db2
        appid now2 sc2 web2).usedNetwork = false ∧
    (get_depot_info_from_api
        (get_depot_info_from_api db appid now1 sc1 web1).db2
        appid now2 sc2 web2).db2 =
      (get_depot_info_from_api db appid now1 sc1 web1).db2 := by
  obtain ⟨hm, hdb⟩ := api_healed hheal
  rw [hdb]
  have hget := get_after_upsert db appid fd now1 now2 hbr hwin
  unfold get_depot_info_from_api
  rw [hget]
  simp [hne]

/-- Witness for `c4_cache_hit_amended`: the heal on `c6WebRaw` stores one
depot, and the follow-up call is a cache hit. -/
theorem c4_cache_hit_amended_witness :
    ((get_depot_info_from_api [] "7" 0 none (some c6WebRaw)).healed
        = some c6Fd ∧
     c6Fd.depots.isEmpty = false ∧
     hasKey c6Fd.depots "branches" = false ∧
     (5 : ℤ) - 0 ≤ EXPIRATION_SECONDS) ∧
    ((get_depot_info_from_api
        (get_depot_info_from_api [] "7" 0 none (some c6WebRaw)).db2
        "7" 5 none (some c6WebRaw)).fromDb = true ∧
     (get_depot_info_from_api
        (get_depot_info_from_api [] "7" 0 none (some c6WebRaw)).db2
        "7" 5 none (some c6WebRaw)).usedNetwork = false ∧
     (get_depot_info_from_api
        (get_depot_info_from_api [] "7" 0 none (some c6WebRaw)).db2
        "7" 5 none (some c6WebRaw)).db2 =
      (get_depot_info_from_api [] "7" 0 none (some c6WebRaw)).db2) :=
  ⟨⟨rfl, by decide, by decide, by decide⟩,
    c4_cache_hit_amended [] "7" 0 5 none (some c6WebRaw) none
      (some c6WebRaw) c6Fd rfl (by decide) (by decide) (by decide)⟩

/-! ## Claim C6 -/

/-- **C6.**  Depot decryption keys are never written to the persistent
metadata cache: the only `upsert_app_info` call site in the program is
the heal in `get_depot_info_from_api` (verified over the repository),
and for every possible pair of raw source responses the healed payload's
depot table contains no `key` field — both source parsers build each
depot value as a literal dict of metadata fields only (keys are written
only to the ephemeral per-job key file, see C2's `writeKeyFile`). -/
theorem c6_keys_never_persisted (db : Db) (appid : String) (now : ℤ)
    (scRaw webRaw : Option JVal) (fd : AppData)
    (hheal : (get_depot_info_from_api db appid now scRaw webRaw).healed
      = some fd) :
    ∀ p ∈ fd.depots, jHasField p.2 "key" = false :=
  merged_result_no_key appid scRaw webRaw (api_healed hheal).1

/-- Witness for `c6_keys_never_persisted` on the one-depot heal. -/
theorem c6_keys_never_persisted_witness :
    ((get_depot_info_from_api [] "7" 0 none (some c6WebRaw)).healed
      = some c6Fd) ∧
    (∀ p ∈ c6Fd.depots, jHasField p.2 "key" = false) :=
  ⟨rfl, c6_keys_never_persisted [] "7" 0 none (some c6WebRaw) c6Fd rfl⟩

/-! ## Claim C10 -/

/-- **C10.**  `get_manifest_id` with `use_cache=False` always returns
`success=False`: the function first calls `DatabaseManager.clear_app_info`,
a method the class does not define, so the `AttributeError` is raised
and caught by the blanket handler, producing the
`Unexpected error: …` result; and since the internal force-refresh
retry — taken whenever cached data lacks a manifest id — is exactly that
`use_cache=False` path, the retry can never succeed either. -/
theorem c10_force_refresh_always_fails (appid : String)
    (depot_id : Option String)
    (cached fresh : Option (List (String × JVal))) :
    (get_manifest_id appid depot_id cached fresh false).success = false ∧
    (get_manifest_id appid depot_id cached fresh false).error =
      some "Unexpected error: DatabaseManager object has no attribute clear_app_info" ∧
    (get_manifest_id_nocache appid depot_id fresh).success = false :=
  ⟨rfl, rfl, rfl⟩

/-! ## Claim C5 -/

/-- **C5.**  `get_app_info` treats a stored row whose
`last_updated` age exceeds `EXPIRATION_SECONDS = 1_209_600` seconds
(14 days) identically to an absent row: it returns `None`, forcing
re-resolution. -/
theorem c5_expiration_miss (db : Db) (appid : String) (now : ℤ)
    (row : DbRow) (hrow : lookupKey db appid = some row)
    (hage : now - row.last_updated.getD 0 > EXPIRATION_SECONDS) :
    get_app_info db appid now = none := by
  simp [get_app_info, hrow, hage]

/-- Witness for `c5_expiration_miss`: a row written at epoch 0 queried at
epoch 2,000,000. -/
theorem c5_expiration_miss_witness :
    (lookupKey c5StaleDb "7" = some c5StaleRow ∧
     (2000000 : ℤ) - c5StaleRow.last_updated.getD 0 > EXPIRATION_SECONDS) ∧
    get_app_info c5StaleDb "7" 2000000 = none :=
  ⟨⟨rfl, by decide⟩,
    c5_expiration_miss c5StaleDb "7" 2000000 c5StaleRow rfl (by decide)⟩

end Accela
